import Mathlib

/-!
Sticky sessions (`roundrobin/stickysessions.go`)

A shallow embedding of the session-affinity mixin of the load balancer:
`Confirmed`, `GetBackend`, `StickBackend` and `isBackendAlive`, together with
the small part of Go's `net/http` and `net/url` interface the code calls.

Conventions of the embedding.

* A Go pointer that may be `nil` is an `Option`; the Go result
  `(*url.URL, bool, error)` is `Option URL × Bool × Option Error`.
* A Go map `map[string][]string` (`http.Header`, `url.Values`) is a total
  function `String → List String`; a missing key is the empty list.
* `url.Parse` and `URL.String` belong to the Go standard library.
  `GetBackend` takes the first as a parameter `parse` and `StickBackend` the
  second as a parameter `urlString`, so the theorems hold for whatever they
  do. `urlParse` below is a small concrete instance used for the worked
  examples.
* `sameURL` lives in another file of the package and is modelled from the
  spec.
-/

set_option autoImplicit false

namespace roundrobin

/-! ## The part of `net/url` and `net/http` the code uses -/

/-- Go `url.Userinfo`. -/
structure Userinfo where
  username : String
  password : String
  passwordSet : Bool
deriving DecidableEq, Repr

/-- Go `url.URL`. -/
structure URL where
  Scheme : String
  Opaque : String
  User : Option Userinfo
  Host : String
  Path : String
  RawPath : String
  OmitHost : Bool
  ForceQuery : Bool
  RawQuery : String
  Fragment : String
  RawFragment : String
deriving DecidableEq, Repr

/-- Go `url.Error`: the error value `url.Parse` returns. -/
structure URLError where
  Op : String
  URL : String
  Err : String
deriving DecidableEq, Repr

/-- Go `error` values that can reach `GetBackend`: the sentinel
`http.ErrNoCookie`, a `*url.Error` from `url.Parse`, or any other error. -/
inductive Error where
  | ErrNoCookie
  | url (e : URLError)
  | other (msg : String)
deriving DecidableEq, Repr

/-- Go `http.Cookie`, reduced to the two fields a request cookie carries. -/
structure Cookie where
  Name : String
  Value : String
deriving DecidableEq, Repr

/-- Go `http.Header`: canonical key to values. -/
abbrev Header := String → List String

/-- Go `url.Values`: key to values. -/
abbrev Values := String → List String

/-- Go `http.Request`, as the code observes it: the method, the header map,
the parsed query `req.URL.Query()` and the cookies `req.Cookies()` in the
order they were sent. Go reads the cookies out of the `Cookie` header; here
the two fields are independent, so the requests of this type include every
request Go can build. -/
structure Request where
  Method : String
  Header : Header
  Query : Values
  Cookies : List Cookie

/-- Go `http.MethodGet`. -/
def MethodGet : String := "GET"

/-- Go `textproto.validHeaderFieldByte`: the token characters of RFC 7230. -/
def validHeaderFieldByte (c : Char) : Bool :=
  c.isAlphanum ||
    [33, 35, 36, 37, 38, 39, 42, 43, 45, 46, 94, 95, 96, 124, 126].contains c.toNat

/-- The casing loop of `textproto.canonicalMIMEHeaderKey`: upper case for
the first letter and after each dash, lower case elsewhere. -/
def canonicalCase : Bool → List Char → List Char
  | _, [] => []
  | upper, c :: cs =>
    let c1 := if upper && c.isLower then c.toUpper
      else if !upper && c.isUpper then c.toLower else c
    c1 :: canonicalCase (c1 == '-') cs

/-- Go `textproto.CanonicalMIMEHeaderKey`: a key with a byte that is not a
token character is returned unchanged, any other key is re-cased. -/
def CanonicalMIMEHeaderKey (s : String) : String :=
  if s.data.all validHeaderFieldByte then String.mk (canonicalCase true s.data) else s

/-- Go `Header.Get`: the first value under the canonical form of `key`,
the empty string when there is none. -/
def Header.Get (h : Header) (key : String) : String :=
  match h (CanonicalMIMEHeaderKey key) with
  | [] => ""
  | v :: _ => v

/-- Go `Header.Set`: the entry under the canonical form of `key` becomes the
single value `value`; every other entry is kept. -/
def Header.Set (h : Header) (key value : String) : Header :=
  fun k => if k = CanonicalMIMEHeaderKey key then [value] else h k

/-- Go `Header.Values`: all the values under the canonical form of `key`. -/
def Header.Values (h : Header) (key : String) : List String :=
  h (CanonicalMIMEHeaderKey key)

/-- Go `http.ResponseWriter`, as `StickBackend` uses it: the header map that
`Header()` returns. -/
structure ResponseWriter where
  Header : Header

/-- Go `Values.Get`: the first value under `key`, the empty string when
there is none. -/
def Values.Get (v : Values) (key : String) : String :=
  match v key with
  | [] => ""
  | x :: _ => x

/-- Go `Request.Cookie`: the first cookie of that name, `ErrNoCookie` when
the name is empty or no cookie has it. -/
def Request.Cookie (r : Request) (name : String) : Except Error Cookie :=
  if name = "" then .error .ErrNoCookie
  else
    match r.Cookies.find? (fun c => c.Name == name) with
    | some c => .ok c
    | none => .error .ErrNoCookie

/-! ## `stickysessions.go` -/

/-- Go `CookieOptions`; `Expires` is the instant as an integer and
`SameSite` the integer value of `http.SameSite`. -/
structure CookieOptions where
  HTTPOnly : Bool
  Secure : Bool
  Path : String
  Domain : String
  Expires : Int
  MaxAge : Int
  SameSite : Int
deriving DecidableEq, Repr

/-- The zero value of `CookieOptions`. -/
def CookieOptions.zero : CookieOptions :=
  ⟨false, false, "", "", 0, 0, 0⟩

/-- Go `StickySession`. -/
structure StickySession where
  cookieName : String
  options : CookieOptions
deriving DecidableEq, Repr

/-- Go `NewStickySession`. -/
def NewStickySession (cookieName : String) : StickySession :=
  { cookieName := cookieName, options := CookieOptions.zero }

/-- Go `NewStickySessionWithOptions`. -/
def NewStickySessionWithOptions (cookieName : String) (options : CookieOptions) :
    StickySession :=
  { cookieName := cookieName, options := options }

/-- Go `StickySession.Confirmed`. -/
def StickySession.Confirmed (_s : StickySession) (req : Request) : Bool :=
  let appSessionId := "app_session_id"
  if req.Header.Get appSessionId ≠ "" then true
  else if req.Query.Get appSessionId ≠ "" then true
  else if req.Method = MethodGet then
    match req.Cookie appSessionId with
    | .ok _ => true
    | .error _ => false
  else false

/-- Modelled from the spec: `sameURL` is defined in another file of the
package that is not part of the sources at hand. The spec calls the test an
exact-match membership test, by exact URL/string equality, so two URLs are
the same when they are equal. -/
def sameURL (a b : URL) : Bool :=
  decide (a = b)

/-- The `for ... range haystack` loop of `isBackendAlive`. -/
def isBackendAliveLoop (needle : URL) : List URL → Bool
  | [] => false
  | serverURL :: rest =>
    if sameURL needle serverURL then true else isBackendAliveLoop needle rest

/-- Go `StickySession.isBackendAlive`. -/
def StickySession.isBackendAlive (_s : StickySession) (needle : URL)
    (haystack : List URL) : Bool :=
  if haystack.length = 0 then false
  else isBackendAliveLoop needle haystack

/-- The pair `(serverURL, serverURLerr)` after an assignment from
`url.Parse(raw)`: a URL and no error, or no URL and the parse error. -/
def parseAssign (parse : String → Except URLError URL) (raw : String) :
    Option URL × Option Error :=
  match parse raw with
  | .ok u => (some u, none)
  | .error e => (none, some (.url e))

/-- Go `StickySession.GetBackend`. The pairs `st0 .. st3` are the values of
the local variables `(serverURL, serverURLerr)` after each block. -/
def StickySession.GetBackend (parse : String → Except URLError URL)
    (s : StickySession) (req : Request) (servers : List URL) :
    Option URL × Bool × Option Error :=
  let st0 : Option URL × Option Error := (none, none)
  let header := req.Header.Get s.cookieName
  let st1 := if header ≠ "" then parseAssign parse header else st0
  let st2 :=
    if st1.1.isNone && st1.2.isNone then
      let query := req.Query.Get s.cookieName
      if query ≠ "" then parseAssign parse query else st1
    else st1
  let st3 :=
    if st2.1.isNone && st2.2.isNone then
      match req.Cookie s.cookieName with
      | .ok cookie => parseAssign parse cookie.Value
      | .error .ErrNoCookie => st2
      | .error err => (st2.1, some err)
    else st2
  match st3.2 with
  | some err => (none, false, some err)
  | none =>
    match st3.1 with
    | none => (none, false, none)
    | some serverURL =>
      if s.isBackendAlive serverURL servers then (some serverURL, true, none)
      else (none, false, none)

/-- Go `StickySession.StickBackend`. The serialisation `backend.String()`
belongs to the Go standard library and is the parameter `urlString`. The
body after the first statement is commented out in the source. -/
def StickySession.StickBackend (urlString : URL → String) (s : StickySession)
    (backend : URL) (w : ResponseWriter) : ResponseWriter :=
  { w with Header := w.Header.Set s.cookieName (urlString backend) }

/-! ## A concrete `url.Parse` for the worked examples -/

/-- The URL with every field empty: the zero value `url.URL{}`, which is
also what `url.Parse("")` returns. -/
def emptyURL : URL :=
  { Scheme := "", Opaque := "", User := none, Host := "", Path := "", RawPath := "",
    OmitHost := false, ForceQuery := false, RawQuery := "", Fragment := "",
    RawFragment := "" }

/-- Go `url.stringContainsCTLByte`, on one character: below 0x20 or 0x7f. -/
def isCTLByte (c : Char) : Bool :=
  c.toNat < 32 || c.toNat == 127

/-- Characters the example parser accepts in a host name. -/
def isHostChar (c : Char) : Bool :=
  c.isAlphanum || c == '.' || c == '-'

/-- Characters the example parser accepts in a path. -/
def isPathChar (c : Char) : Bool :=
  c.isAlphanum || c == '/' || c == '.' || c == '-' || c == '_' || c == '~'

/-- The error `url.Parse` wraps around a failure on `raw`. -/
def parseError (raw : List Char) (msg : String) : URLError :=
  { Op := "parse", URL := String.mk raw, Err := msg }

/-- The behaviour of Go `url.Parse` on three classes of input, which cover
the worked examples: a string with a control character before any `#` is
rejected; the empty string gives the empty URL; `scheme://host` followed by
an optional absolute path, all in letters, digits and `. - _ ~ /`, gives the
URL with that (lower-cased) scheme, host and path. Every other input is
outside this fragment and is rejected here, which is not what Go does. -/
def urlParse (rawURL : String) : Except URLError URL :=
  let u := rawURL.data.takeWhile (fun c => c != '#')
  if u.any isCTLByte then
    .error (parseError u "net/url: invalid control character in URL")
  else if rawURL.data.isEmpty then .ok emptyURL
  else
    let scheme := rawURL.data.takeWhile Char.isAlpha
    match rawURL.data.dropWhile Char.isAlpha with
    | ':' :: '/' :: '/' :: authority =>
      let host := authority.takeWhile isHostChar
      let path := authority.dropWhile isHostChar
      if !scheme.isEmpty && (path.isEmpty || path.head? == some '/') && path.all isPathChar then
        .ok { emptyURL with
              Scheme := String.mk (scheme.map Char.toLower),
              Host := String.mk host,
              Path := String.mk path }
      else .error (parseError rawURL.data "outside the modelled fragment")
    | _ => .error (parseError rawURL.data "outside the modelled fragment")

/-- The URL `scheme://host`. -/
def mkURL (scheme host : String) : URL :=
  { emptyURL with Scheme := scheme, Host := host }

/-- A request with no header, query parameter or cookie. -/
def emptyRequest (method : String) : Request :=
  { Method := method, Header := fun _ => [], Query := fun _ => [], Cookies := [] }

/-- The header map with the single entry `key: value`. -/
def headerOf (key value : String) : Header :=
  fun k => if k = key then [value] else []

/-! ## Vocabulary of the claims -/

/-- The raw value the precedence rule selects: the first non-empty one in
the order header, query parameter, cookie; `none` when all three are empty
or absent. -/
def firstNonEmptyCarrier (s : StickySession) (req : Request) : Option String :=
  if req.Header.Get s.cookieName ≠ "" then some (req.Header.Get s.cookieName)
  else if req.Query.Get s.cookieName ≠ "" then some (req.Query.Get s.cookieName)
  else
    match req.Cookie s.cookieName with
    | .ok cookie => if cookie.Value ≠ "" then some cookie.Value else none
    | .error _ => none

/-- The decision for a raw carrier value: the parse error, or the parsed URL
when it is alive, or not found. -/
def decisionOf (parse : String → Except URLError URL) (s : StickySession)
    (raw : String) (servers : List URL) : Option URL × Bool × Option Error :=
  match parse raw with
  | .ok u =>
    if s.isBackendAlive u servers then (some u, true, none) else (none, false, none)
  | .error e => (none, false, some (.url e))

/-! ## Worked inputs -/

/-- The backend `http://b1`. -/
def b1 : URL := mkURL "http" "b1"

/-- The backend `http://b2`. -/
def b2 : URL := mkURL "http" "b2"

/-- The session whose carrier name is `lb`. -/
def lb : StickySession := NewStickySession "lb"

/-- A request that carries `value` in the header `Lb`. -/
def headerRequest (method value : String) : Request :=
  { emptyRequest method with Header := headerOf "Lb" value }

/-- A request that carries the cookie `lb=value` and nothing under the
header or query parameter `lb`. -/
def cookieRequest (method value : String) : Request :=
  { emptyRequest method with
    Header := headerOf "Cookie" ("lb=" ++ value),
    Cookies := [{ Name := "lb", Value := value }] }

/-- The backend `http://b3`. -/
def b3 : URL := mkURL "http" "b3"

/-- The request `headerRequest method value` with a query parameter and a
cookie of the carrier name added. -/
def noisyRequest (method value query cookie : String) : Request :=
  { Method := method,
    Header := fun k =>
      if k = "Lb" then [value] else if k = "Cookie" then ["lb=" ++ cookie] else [],
    Query := fun k => if k = "lb" then [query] else [],
    Cookies := [{ Name := "lb", Value := cookie }] }

/-- A request whose only content is the cookie `app_session_id=value`. -/
def appCookieRequest (method value : String) : Request :=
  { emptyRequest method with
    Header := headerOf "Cookie" ("app_session_id=" ++ value),
    Cookies := [{ Name := "app_session_id", Value := value }] }

/-- The behaviour of Go `URL.String` on the URLs the example parser
produces: only scheme, host and path are set, host and path need no
escaping and the path is empty or absolute. The scheme is followed by `:`,
the host is preceded by `//`, the path comes last. On any other URL this
is not what Go does. -/
def serialize (u : URL) : String :=
  (if u.Scheme = "" then "" else u.Scheme ++ ":") ++
    (if u.Scheme = "" ∧ u.Host = "" then ""
      else if u.Host = "" ∧ u.Path = "" then "" else "//" ++ u.Host) ++
    u.Path

/-- A response with no header yet. -/
def emptyResponse : ResponseWriter :=
  { Header := fun _ => [] }

/-- A response that already carries a header `Lb` and a cookie. -/
def usedResponse : ResponseWriter :=
  { Header := fun k =>
      if k = "Lb" then ["http://old", "http://older"]
      else if k = "Set-Cookie" then ["sid=1"] else [] }

/-- A session whose carrier name is `app_session_id` in upper case. -/
def upperSession : StickySession := NewStickySession "APP_SESSION_ID"

/-- A request whose only content is the header `App_session_id: value`. -/
def appHeaderRequest (method value : String) : Request :=
  { emptyRequest method with Header := headerOf "App_session_id" value }

/-- A request with the query parameter `lb=query`, the cookie `lb=cookie`
and no header `Lb`. -/
def queryRequest (method query cookie : String) : Request :=
  { Method := method,
    Header := headerOf "Cookie" ("lb=" ++ cookie),
    Query := fun k => if k = "lb" then [query] else [],
    Cookies := [{ Name := "lb", Value := cookie }] }

/-- Some cookie options that differ from the zero value. -/
def strictOptions : CookieOptions :=
  { HTTPOnly := true, Secure := true, Path := "/app", Domain := "example.org",
    Expires := 1700000000, MaxAge := 3600, SameSite := 3 }

/-- A session whose carrier name is `Cookie`, the header the cookies are
read from. -/
def cookieSession : StickySession := NewStickySession "Cookie"

/-- The request `appCookieRequest "GET" "s1"` with the header
`Lb: http://b2` added. -/
def appHeaderStickyRequest : Request :=
  { appCookieRequest "GET" "s1" with
    Header := fun k =>
      if k = "Lb" then ["http://b2"] else (appCookieRequest "GET" "s1").Header k }

/-- The request `appCookieRequest "GET" "s1"` with the query parameter
`lb=http://b2` and the cookie `lb=http://b1` added. -/
def appCookieStickyRequest : Request :=
  { Method := "GET",
    Header := headerOf "Cookie" "lb=http://b1; app_session_id=s1",
    Query := fun k => if k = "lb" then ["http://b2"] else [],
    Cookies := [{ Name := "lb", Value := "http://b1" },
      { Name := "app_session_id", Value := "s1" }] }

/-! ## Lemmas on the library model -/

theorem Request.Cookie_error (r : Request) (name : String) (e : Error)
    (h : r.Cookie name = .error e) : e = .ErrNoCookie := by
  unfold Request.Cookie at h
  split at h
  · injection h with h; exact h.symm
  · split at h
    · cases h
    · injection h with h; exact h.symm

theorem Request.Cookie_ok_iff (r : Request) (name : String) (hname : name ≠ "") :
    (∃ c, r.Cookie name = .ok c) ↔ ∃ c ∈ r.Cookies, c.Name = name := by
  unfold Request.Cookie
  rw [if_neg hname]
  constructor
  · rintro ⟨c, hc⟩
    split at hc
    · next c1 hfind =>
      exact ⟨c1, List.mem_of_find?_eq_some hfind, by simpa using List.find?_some hfind⟩
    · cases hc
  · rintro ⟨c, hmem, hc⟩
    cases hfind : r.Cookies.find? (fun c => c.Name == name) with
    | some c1 => exact ⟨c1, rfl⟩
    | none =>
      have := List.find?_eq_none.mp hfind c hmem
      simp [hc] at this

/-! ## Lemmas on `isBackendAlive` -/

theorem isBackendAliveLoop_iff (needle : URL) (haystack : List URL) :
    isBackendAliveLoop needle haystack = true ↔ needle ∈ haystack := by
  induction haystack with
  | nil => simp [isBackendAliveLoop]
  | cons x xs ih =>
    unfold isBackendAliveLoop
    by_cases hx : needle = x
    · simp [sameURL, hx]
    · simp [sameURL, hx, ih]

theorem isBackendAlive_iff (s : StickySession) (needle : URL) (haystack : List URL) :
    s.isBackendAlive needle haystack = true ↔ needle ∈ haystack := by
  unfold StickySession.isBackendAlive
  cases haystack with
  | nil => simp
  | cons x xs => simpa using isBackendAliveLoop_iff needle (x :: xs)

theorem isBackendAlive_nil (s : StickySession) (needle : URL) :
    s.isBackendAlive needle [] = false := by
  simp [StickySession.isBackendAlive]

/-! ## The four paths through `GetBackend` -/

theorem GetBackend_header (parse : String → Except URLError URL) (s : StickySession)
    (req : Request) (servers : List URL) (hh : req.Header.Get s.cookieName ≠ "") :
    s.GetBackend parse req servers
      = decisionOf parse s (req.Header.Get s.cookieName) servers := by
  unfold StickySession.GetBackend decisionOf parseAssign
  cases hp : parse (req.Header.Get s.cookieName) <;> simp [hh, hp]

theorem GetBackend_query (parse : String → Except URLError URL) (s : StickySession)
    (req : Request) (servers : List URL) (hh : req.Header.Get s.cookieName = "")
    (hq : req.Query.Get s.cookieName ≠ "") :
    s.GetBackend parse req servers
      = decisionOf parse s (req.Query.Get s.cookieName) servers := by
  unfold StickySession.GetBackend decisionOf parseAssign
  cases hp : parse (req.Query.Get s.cookieName) <;> simp [hh, hq, hp]

theorem GetBackend_cookie (parse : String → Except URLError URL) (s : StickySession)
    (req : Request) (servers : List URL) (c : Cookie)
    (hh : req.Header.Get s.cookieName = "") (hq : req.Query.Get s.cookieName = "")
    (hc : req.Cookie s.cookieName = .ok c) :
    s.GetBackend parse req servers = decisionOf parse s c.Value servers := by
  unfold StickySession.GetBackend decisionOf parseAssign
  cases hp : parse c.Value <;> simp [hh, hq, hc, hp]

theorem GetBackend_absent (parse : String → Except URLError URL) (s : StickySession)
    (req : Request) (servers : List URL) (e : Error)
    (hh : req.Header.Get s.cookieName = "") (hq : req.Query.Get s.cookieName = "")
    (hc : req.Cookie s.cookieName = .error e) :
    s.GetBackend parse req servers = (none, false, none) := by
  have he := Request.Cookie_error req s.cookieName e hc
  subst he
  unfold StickySession.GetBackend
  simp [hh, hq, hc]

theorem GetBackend_firstNonEmpty (parse : String → Except URLError URL)
    (s : StickySession) (req : Request) (servers : List URL) (raw : String)
    (hraw : firstNonEmptyCarrier s req = some raw) :
    s.GetBackend parse req servers = decisionOf parse s raw servers := by
  unfold firstNonEmptyCarrier at hraw
  by_cases hh : req.Header.Get s.cookieName = ""
  · by_cases hq : req.Query.Get s.cookieName = ""
    · cases hc : req.Cookie s.cookieName with
      | error e => simp [hh, hq, hc] at hraw
      | ok c =>
        simp only [hh, hq, hc, ne_eq, not_true_eq_false, if_false] at hraw
        split at hraw
        · injection hraw with hraw
          rw [GetBackend_cookie parse s req servers c hh hq hc, hraw]
        · cases hraw
    · simp only [hh, ne_eq, not_true_eq_false, if_false, hq, not_false_eq_true,
        if_true] at hraw
      injection hraw with hraw
      rw [GetBackend_query parse s req servers hh hq, hraw]
  · simp only [ne_eq, hh, not_false_eq_true, if_true] at hraw
    injection hraw with hraw
    rw [GetBackend_header parse s req servers hh, hraw]

theorem firstNonEmptyCarrier_none (s : StickySession) (req : Request)
    (hnone : firstNonEmptyCarrier s req = none) :
    req.Header.Get s.cookieName = "" ∧ req.Query.Get s.cookieName = "" ∧
      ((∃ e, req.Cookie s.cookieName = .error e) ∨
        ∃ c, req.Cookie s.cookieName = .ok c ∧ c.Value = "") := by
  unfold firstNonEmptyCarrier at hnone
  by_cases hh : req.Header.Get s.cookieName = ""
  · by_cases hq : req.Query.Get s.cookieName = ""
    · refine ⟨hh, hq, ?_⟩
      cases hc : req.Cookie s.cookieName with
      | error e => exact Or.inl ⟨e, rfl⟩
      | ok c =>
        right
        refine ⟨c, rfl, ?_⟩
        by_contra hv
        simp [hh, hq, hc, hv] at hnone
    · simp [hh, hq] at hnone
  · simp [hh] at hnone

theorem GetBackend_cases (parse : String → Except URLError URL) (s : StickySession)
    (req : Request) (servers : List URL) :
    s.GetBackend parse req servers = (none, false, none) ∨
      ∃ raw, s.GetBackend parse req servers = decisionOf parse s raw servers := by
  by_cases hh : req.Header.Get s.cookieName = ""
  · by_cases hq : req.Query.Get s.cookieName = ""
    · cases hc : req.Cookie s.cookieName with
      | error e => exact Or.inl (GetBackend_absent parse s req servers e hh hq hc)
      | ok c => exact Or.inr ⟨_, GetBackend_cookie parse s req servers c hh hq hc⟩
    · exact Or.inr ⟨_, GetBackend_query parse s req servers hh hq⟩
  · exact Or.inr ⟨_, GetBackend_header parse s req servers hh⟩

theorem decisionOf_found (parse : String → Except URLError URL) (s : StickySession)
    (raw : String) (servers : List URL)
    (hfound : (decisionOf parse s raw servers).2.1 = true) :
    ∃ u, parse raw = .ok u ∧ u ∈ servers ∧
      decisionOf parse s raw servers = (some u, true, none) := by
  unfold decisionOf at hfound ⊢
  cases hp : parse raw with
  | error e => simp [hp] at hfound
  | ok u =>
    by_cases ha : s.isBackendAlive u servers = true
    · exact ⟨u, rfl, (isBackendAlive_iff s u servers).mp ha, by simp [ha]⟩
    · simp [hp, ha] at hfound

/-! ## The claims -/

/-- C1: whenever `GetBackend` returns `found = true`, the URL it returns is
an entry of the backend list passed to that call. -/
theorem GetBackend_found_mem (parse : String → Except URLError URL) (s : StickySession)
    (req : Request) (servers : List URL)
    (hfound : (s.GetBackend parse req servers).2.1 = true) :
    ∃ u, (s.GetBackend parse req servers).1 = some u ∧ u ∈ servers := by
  rcases GetBackend_cases parse s req servers with h | ⟨raw, h⟩
  · rw [h] at hfound; cases hfound
  · rw [h] at hfound ⊢
    obtain ⟨u, _, hmem, hd⟩ := decisionOf_found parse s raw servers hfound
    exact ⟨u, by rw [hd], hmem⟩

theorem GetBackend_found_mem_witness :
    (lb.GetBackend urlParse (headerRequest "GET" "http://b2") [b1, b2]).2.1 = true ∧
      ∃ u, (lb.GetBackend urlParse (headerRequest "GET" "http://b2") [b1, b2]).1 = some u ∧
        u ∈ [b1, b2] :=
  ⟨by decide, GetBackend_found_mem urlParse lb _ _ (by decide)⟩

/-- C2: when the first non-empty carrier value (header, then query, then
cookie) parses to `u` and `u` is in the backend list, `GetBackend` returns
`(u, true, nil)`. -/
theorem GetBackend_member (parse : String → Except URLError URL) (s : StickySession)
    (req : Request) (servers : List URL) (raw : String) (u : URL)
    (hraw : firstNonEmptyCarrier s req = some raw) (hparse : parse raw = .ok u)
    (hmem : u ∈ servers) :
    s.GetBackend parse req servers = (some u, true, none) := by
  rw [GetBackend_firstNonEmpty parse s req servers raw hraw]
  simp [decisionOf, hparse, (isBackendAlive_iff s u servers).mpr hmem]

theorem GetBackend_member_witness :
    lb.GetBackend urlParse (headerRequest "GET" "http://b2") [b1, b2]
      = (some b2, true, none) :=
  GetBackend_member urlParse lb (headerRequest "GET" "http://b2") [b1, b2] "http://b2" b2
    (by decide) rfl (by decide)

/-- C3: when the first non-empty carrier value parses to `u` and `u` is not
in the backend list, `GetBackend` returns `(nil, false, nil)`: a stale
backend is never an error. -/
theorem GetBackend_stale (parse : String → Except URLError URL) (s : StickySession)
    (req : Request) (servers : List URL) (raw : String) (u : URL)
    (hraw : firstNonEmptyCarrier s req = some raw) (hparse : parse raw = .ok u)
    (hmem : u ∉ servers) :
    s.GetBackend parse req servers = (none, false, none) := by
  rw [GetBackend_firstNonEmpty parse s req servers raw hraw]
  have ha : ¬ s.isBackendAlive u servers = true :=
    fun h => hmem ((isBackendAlive_iff s u servers).mp h)
  simp [decisionOf, hparse, ha]

theorem GetBackend_stale_witness :
    lb.GetBackend urlParse (headerRequest "GET" "http://b3") [b1] = (none, false, none) :=
  GetBackend_stale urlParse lb (headerRequest "GET" "http://b3") [b1] "http://b3" b3
    (by decide) rfl (by decide)

/-- C4, as stated, fails: the request is a POST, its header and query
carriers are empty, and `GetBackend` still reads the cookie `lb=http://b1`
and returns `(http://b1, true, nil)`, exactly as on the identical GET. -/
theorem GetBackend_post_cookie_consulted :
    (cookieRequest "POST" "http://b1").Method ≠ MethodGet ∧
      (cookieRequest "POST" "http://b1").Header.Get lb.cookieName = "" ∧
      (cookieRequest "POST" "http://b1").Query.Get lb.cookieName = "" ∧
      lb.GetBackend urlParse (cookieRequest "POST" "http://b1") [b1] = (some b1, true, none) ∧
      lb.GetBackend urlParse (cookieRequest "POST" "http://b1") [b1] ≠ (none, false, none) ∧
      lb.GetBackend urlParse (cookieRequest "GET" "http://b1") [b1] = (some b1, true, none) := by
  decide

/-- C4 (amended): `GetBackend` does not look at the request method. For
every method `m` and every request whose header and query carriers are empty
and that has a cookie `c` named after the carrier, the decision on the
request with method `m` is the decision for the value of `c`: the parse
error, the parsed URL with `found = true` when it is alive in the backend
list, not found otherwise. -/
theorem GetBackend_cookie_any_method (parse : String → Except URLError URL)
    (s : StickySession) (req : Request) (servers : List URL) (c : Cookie) (m : String)
    (hh : req.Header.Get s.cookieName = "") (hq : req.Query.Get s.cookieName = "")
    (hc : req.Cookie s.cookieName = .ok c) :
    s.GetBackend parse { req with Method := m } servers
      = match parse c.Value with
        | .ok u =>
          if s.isBackendAlive u servers then (some u, true, none) else (none, false, none)
        | .error e => (none, false, some (.url e)) :=
  GetBackend_cookie parse s { req with Method := m } servers c hh hq hc

theorem GetBackend_cookie_any_method_witness :
    lb.GetBackend urlParse { cookieRequest "GET" "http://b1" with Method := "POST" } [b1]
      = (some b1, true, none) :=
  GetBackend_cookie_any_method urlParse lb (cookieRequest "GET" "http://b1") [b1]
    { Name := "lb", Value := "http://b1" } "POST" (by decide) (by decide) rfl

/-- C5: two requests with the same non-empty header carrier value that
parses give the same decision, whatever their query parameters and cookies
are: the query and cookie carriers are not consulted, the decision is the
one for the parsed header value. -/
theorem GetBackend_header_precedence (parse : String → Except URLError URL)
    (s : StickySession) (r1 r2 : Request) (servers : List URL) (u : URL)
    (hsame : r2.Header.Get s.cookieName = r1.Header.Get s.cookieName)
    (hne : r1.Header.Get s.cookieName ≠ "")
    (hparse : parse (r1.Header.Get s.cookieName) = .ok u) :
    s.GetBackend parse r1 servers = s.GetBackend parse r2 servers ∧
      s.GetBackend parse r1 servers
        = if s.isBackendAlive u servers then (some u, true, none)
          else (none, false, none) := by
  have hne2 : r2.Header.Get s.cookieName ≠ "" := by rw [hsame]; exact hne
  rw [GetBackend_header parse s r1 servers hne, GetBackend_header parse s r2 servers hne2,
    hsame]
  refine ⟨rfl, ?_⟩
  unfold decisionOf
  rw [hparse]

theorem GetBackend_header_precedence_witness :
    lb.GetBackend urlParse (headerRequest "GET" "http://b2") [b1, b2]
        = lb.GetBackend urlParse (noisyRequest "GET" "http://b2" "http://b1" "%%") [b1, b2] ∧
      lb.GetBackend urlParse (headerRequest "GET" "http://b2") [b1, b2]
        = if lb.isBackendAlive b2 [b1, b2] then (some b2, true, none)
          else (none, false, none) :=
  GetBackend_header_precedence urlParse lb (headerRequest "GET" "http://b2")
    (noisyRequest "GET" "http://b2" "http://b1" "%%") [b1, b2] b2 (by decide)
    (by decide) rfl

/-- C6: a non-empty header carrier value that fails to parse makes
`GetBackend` return a nil URL, `found = false` and that parse error,
whatever the query parameters, the cookies and the backend list. -/
theorem GetBackend_header_parse_error (parse : String → Except URLError URL)
    (s : StickySession) (req : Request) (servers : List URL) (e : URLError)
    (hne : req.Header.Get s.cookieName ≠ "")
    (hparse : parse (req.Header.Get s.cookieName) = .error e) :
    s.GetBackend parse req servers = (none, false, some (.url e)) := by
  rw [GetBackend_header parse s req servers hne]
  simp [decisionOf, hparse]

theorem GetBackend_header_parse_error_witness :
    lb.GetBackend urlParse (noisyRequest "GET" "http://\x00bad" "http://b1" "http://b1") [b1]
      = (none, false,
          some (.url ⟨"parse", "http://\x00bad", "net/url: invalid control character in URL"⟩)) :=
  GetBackend_header_parse_error urlParse lb
    (noisyRequest "GET" "http://\x00bad" "http://b1" "http://b1") [b1] _
    (by decide) rfl

/-- C7, as stated, fails for a carrier cookie with an empty value: the
header and query carriers are empty, the cookie is `lb=`, and `GetBackend`
parses the empty value to the empty URL; with that URL in the backend list
it returns `found = true` instead of `(nil, false, nil)`. -/
theorem GetBackend_empty_cookie_found :
    (cookieRequest "GET" "").Header.Get lb.cookieName = "" ∧
      (cookieRequest "GET" "").Query.Get lb.cookieName = "" ∧
      (cookieRequest "GET" "").Cookie lb.cookieName = .ok { Name := "lb", Value := "" } ∧
      lb.GetBackend urlParse (cookieRequest "GET" "") [emptyURL]
        = (some emptyURL, true, none) ∧
      lb.GetBackend urlParse (cookieRequest "GET" "") [emptyURL] ≠ (none, false, none) :=
  ⟨by decide, by decide, rfl, by decide, by decide⟩

/-- C7 (amended): when the header carrier value is empty, the query carrier
value is empty, and the carrier cookie is absent, or has an empty value that
parses to a URL that is not alive in the backend list, `GetBackend` returns
`(nil, false, nil)`. -/
theorem GetBackend_absent_not_found (parse : String → Except URLError URL)
    (s : StickySession) (req : Request) (servers : List URL)
    (hh : req.Header.Get s.cookieName = "") (hq : req.Query.Get s.cookieName = "")
    (hc : (∀ c ∈ req.Cookies, c.Name ≠ s.cookieName) ∨
      ∃ c u, req.Cookie s.cookieName = .ok c ∧ c.Value = "" ∧ parse "" = .ok u ∧
        s.isBackendAlive u servers = false) :
    s.GetBackend parse req servers = (none, false, none) := by
  rcases hc with habs | ⟨c, u, hc, hv, hp, ha⟩
  · cases hck : req.Cookie s.cookieName with
    | error e => exact GetBackend_absent parse s req servers e hh hq hck
    | ok c =>
      exfalso
      unfold Request.Cookie at hck
      split at hck
      · cases hck
      · split at hck
        · next c1 hfind =>
          exact habs c1 (List.mem_of_find?_eq_some hfind) (by simpa using List.find?_some hfind)
        · cases hck
  · rw [GetBackend_cookie parse s req servers c hh hq hc, hv]
    simp [decisionOf, hp, ha]

theorem GetBackend_absent_not_found_witness :
    lb.GetBackend urlParse (cookieRequest "POST" "") [b1] = (none, false, none) :=
  GetBackend_absent_not_found urlParse lb (cookieRequest "POST" "") [b1]
    (by decide) (by decide)
    (Or.inr ⟨{ Name := "lb", Value := "" }, emptyURL, rfl, rfl, rfl, by decide⟩)

/-- C8: with a parser that accepts the empty string, as `url.Parse` does,
`GetBackend` returns the error `err` if and only if the first non-empty
carrier value (header, then query, then cookie) fails to parse and `err` is
that parse error; so an absent value or an unknown backend gives no error. -/
theorem GetBackend_error_iff (parse : String → Except URLError URL) (s : StickySession)
    (req : Request) (servers : List URL) (err : Error)
    (hempty : ∃ u, parse "" = .ok u) :
    (s.GetBackend parse req servers).2.2 = some err ↔
      ∃ raw e, firstNonEmptyCarrier s req = some raw ∧ parse raw = .error e ∧
        err = .url e := by
  cases hf : firstNonEmptyCarrier s req with
  | some raw =>
    rw [GetBackend_firstNonEmpty parse s req servers raw hf]
    unfold decisionOf
    cases hp : parse raw with
    | error e =>
      constructor
      · intro h
        refine ⟨raw, e, rfl, hp, ?_⟩
        simpa using h.symm
      · rintro ⟨raw1, e1, hr, hp1, he⟩
        injection hr with hr
        subst hr
        rw [hp] at hp1
        injection hp1 with hp1
        subst hp1
        simp [he]
    | ok u =>
      constructor
      · intro h
        by_cases ha : s.isBackendAlive u servers = true <;> simp [ha] at h
      · rintro ⟨raw1, e1, hr, hp1, _⟩
        injection hr with hr
        subst hr
        rw [hp] at hp1
        cases hp1
  | none =>
    obtain ⟨hh, hq, hc⟩ := firstNonEmptyCarrier_none s req hf
    have hres : (s.GetBackend parse req servers).2.2 = none := by
      rcases hc with ⟨e, hc⟩ | ⟨c, hc, hv⟩
      · rw [GetBackend_absent parse s req servers e hh hq hc]
      · obtain ⟨u, hu⟩ := hempty
        rw [GetBackend_cookie parse s req servers c hh hq hc, hv]
        unfold decisionOf
        rw [hu]
        by_cases ha : s.isBackendAlive u servers = true <;> simp [ha]
    rw [hres]
    constructor
    · intro h; cases h
    · rintro ⟨raw1, e1, hr, _, _⟩; cases hr

theorem GetBackend_error_iff_witness :
    (∃ u, urlParse "" = .ok u) ∧
      ((lb.GetBackend urlParse (headerRequest "GET" "http://\x00bad") [b1]).2.2
          = some (.url ⟨"parse", "http://\x00bad", "net/url: invalid control character in URL"⟩) ↔
        ∃ raw e, firstNonEmptyCarrier lb (headerRequest "GET" "http://\x00bad") = some raw ∧
          urlParse raw = .error e ∧
          Error.url ⟨"parse", "http://\x00bad", "net/url: invalid control character in URL"⟩
            = .url e) :=
  ⟨⟨emptyURL, rfl⟩,
    GetBackend_error_iff urlParse lb (headerRequest "GET" "http://\x00bad") [b1] _
      ⟨emptyURL, rfl⟩⟩

/-- C9: with an empty backend list `GetBackend` returns `found = false`,
whatever the request carries. -/
theorem GetBackend_no_servers (parse : String → Except URLError URL) (s : StickySession)
    (req : Request) : (s.GetBackend parse req []).2.1 = false := by
  rcases GetBackend_cases parse s req [] with h | ⟨raw, h⟩
  · rw [h]
  · rw [h]
    unfold decisionOf
    cases parse raw with
    | error e => rfl
    | ok u => simp [isBackendAlive_nil]

/-- C10: `Confirmed` returns true if and only if the header
`app_session_id` has a non-empty value, or the query parameter
`app_session_id` has a non-empty value, or the method is GET and a cookie
named `app_session_id` is present; on a non-GET request without the header
and the query parameter it returns false whatever the cookies are. -/
theorem Confirmed_iff (s : StickySession) (req : Request) :
    (s.Confirmed req = true ↔
      (req.Header.Get "app_session_id" ≠ "" ∨ req.Query.Get "app_session_id" ≠ "" ∨
        (req.Method = "GET" ∧ ∃ c ∈ req.Cookies, c.Name = "app_session_id"))) ∧
      (req.Method ≠ "GET" → req.Header.Get "app_session_id" = "" →
        req.Query.Get "app_session_id" = "" → s.Confirmed req = false) := by
  have hname : ("app_session_id" : String) ≠ "" := by decide
  have hcookie := Request.Cookie_ok_iff req "app_session_id" hname
  unfold StickySession.Confirmed MethodGet
  by_cases hh : req.Header.Get "app_session_id" = ""
  · by_cases hq : req.Query.Get "app_session_id" = ""
    · by_cases hm : req.Method = "GET"
      · cases hc : req.Cookie "app_session_id" with
        | error e =>
          have hno : ¬ ∃ c ∈ req.Cookies, c.Name = "app_session_id" := by
            intro h
            obtain ⟨c, hc1⟩ := hcookie.mpr h
            rw [hc] at hc1
            cases hc1
          simp [hh, hq, hm, hno, hc]
        | ok c =>
          have hyes : ∃ c ∈ req.Cookies, c.Name = "app_session_id" := hcookie.mp ⟨c, hc⟩
          simp [hh, hq, hm, hyes, hc]
      · simp [hh, hq, hm]
    · simp [hh, hq]
  · simp [hh]

theorem Confirmed_iff_witness :
    (appCookieRequest "POST" "s1").Method ≠ "GET" ∧
      (∃ c ∈ (appCookieRequest "POST" "s1").Cookies, c.Name = "app_session_id") ∧
      lb.Confirmed (appCookieRequest "POST" "s1") = false ∧
      lb.Confirmed (appCookieRequest "GET" "s1") = true :=
  ⟨by decide, ⟨_, List.mem_singleton.mpr rfl, rfl⟩,
    (Confirmed_iff lb (appCookieRequest "POST" "s1")).2 (by decide) (by decide) (by decide),
    by decide⟩

/-! ## Lemmas for the marker, the confirmation and the backend list -/

theorem Header.Get_Set_self (h : Header) (key value : String) :
    (h.Set key value).Get key = value := by
  simp [Header.Get, Header.Set]

theorem Header.Set_other (h : Header) (key value k : String)
    (hk : k ≠ CanonicalMIMEHeaderKey key) : (h.Set key value) k = h k := by
  simp [Header.Set, hk]

theorem cookie_lookup_filter (r1 r2 : Request) (name n : String) (hn : n ≠ name)
    (hcookies : r2.Cookies.filter (fun c => c.Name != n)
      = r1.Cookies.filter (fun c => c.Name != n)) :
    r2.Cookie name = r1.Cookie name := by
  have key : ∀ l : List Cookie,
      l.find? (fun c => c.Name == name)
        = (l.filter (fun c => c.Name != n)).find? (fun c => c.Name == name) := by
    intro l
    rw [List.find?_filter]
    congr 1
    funext c
    by_cases hc : c.Name = name
    · have hne : c.Name ≠ n := fun h => hn (h.symm.trans hc)
      simp [hc, hne]
      exact fun h => hn h.symm
    · simp [hc]
  unfold Request.Cookie
  rw [key r1.Cookies, key r2.Cookies, hcookies]

theorem isBackendAlive_eq_any (s : StickySession) (needle : URL) (haystack : List URL) :
    s.isBackendAlive needle haystack = haystack.any (fun x => sameURL needle x) := by
  unfold StickySession.isBackendAlive
  have loop : ∀ l : List URL,
      isBackendAliveLoop needle l = l.any (fun x => sameURL needle x) := by
    intro l
    induction l with
    | nil => rfl
    | cons x xs ih =>
      unfold isBackendAliveLoop
      cases hx : sameURL needle x <;> simp [hx, ih]
  cases haystack with
  | nil => rfl
  | cons x xs => simpa using loop (x :: xs)

theorem isBackendAlive_mono (s : StickySession) (needle : URL) (l1 l2 : List URL)
    (hsub : ∀ u, u ∈ l1 → u ∈ l2) (h : s.isBackendAlive needle l1 = true) :
    s.isBackendAlive needle l2 = true := by
  rw [isBackendAlive_eq_any] at h ⊢
  obtain ⟨x, hx, hp⟩ := List.any_eq_true.mp h
  exact List.any_eq_true.mpr ⟨x, hsub x hx, hp⟩

theorem isBackendAlive_congr (s : StickySession) (needle : URL) (l1 l2 : List URL)
    (hsame : ∀ u, u ∈ l1 ↔ u ∈ l2) :
    s.isBackendAlive needle l1 = s.isBackendAlive needle l2 := by
  cases h1 : s.isBackendAlive needle l1 with
  | true =>
    exact (isBackendAlive_mono s needle l1 l2 (fun u hu => (hsame u).mp hu) h1).symm
  | false =>
    cases h2 : s.isBackendAlive needle l2 with
    | false => rfl
    | true =>
      have := isBackendAlive_mono s needle l2 l1 (fun u hu => (hsame u).mpr hu) h2
      rw [h1] at this
      cases this

theorem GetBackend_uniform (parse : String → Except URLError URL) (s : StickySession)
    (req : Request) :
    (∀ servers, s.GetBackend parse req servers = (none, false, none)) ∨
      ∃ raw, ∀ servers, s.GetBackend parse req servers = decisionOf parse s raw servers := by
  by_cases hh : req.Header.Get s.cookieName = ""
  · by_cases hq : req.Query.Get s.cookieName = ""
    · cases hc : req.Cookie s.cookieName with
      | error e =>
        exact Or.inl (fun servers => GetBackend_absent parse s req servers e hh hq hc)
      | ok c =>
        exact Or.inr ⟨_, fun servers => GetBackend_cookie parse s req servers c hh hq hc⟩
    · exact Or.inr ⟨_, fun servers => GetBackend_query parse s req servers hh hq⟩
  · exact Or.inr ⟨_, fun servers => GetBackend_header parse s req servers hh⟩

theorem decisionOf_shape (parse : String → Except URLError URL) (s : StickySession)
    (raw : String) (servers : List URL) :
    (∃ u, decisionOf parse s raw servers = (some u, true, none)) ∨
      decisionOf parse s raw servers = (none, false, none) ∨
      ∃ e, decisionOf parse s raw servers = (none, false, some e) := by
  unfold decisionOf
  cases parse raw with
  | error e => exact Or.inr (Or.inr ⟨_, rfl⟩)
  | ok u =>
    cases ha : s.isBackendAlive u servers with
    | true => exact Or.inl ⟨u, by simp [ha]⟩
    | false => exact Or.inr (Or.inl (by simp [ha]))

/-! ## The claims on the marker, the confirmation and the backend list -/

/-- C11, as stated, fails for the header carrier, in two ways. The carrier
name `APP_SESSION_ID` differs from `app_session_id`, yet both name the
header `App_session_id`; and the carrier name `Cookie` names the header the
cookies are read from, so a change of the header under the carrier name adds
the cookie `app_session_id=s1`. In both cases two requests that differ only
in the header value under the carrier name get different answers from
`Confirmed`. -/
theorem Confirmed_carrier_collisions :
    (upperSession.cookieName ≠ "app_session_id" ∧
      (emptyRequest "POST").Method = (appHeaderRequest "POST" "s1").Method ∧
      (∀ k, k ≠ CanonicalMIMEHeaderKey upperSession.cookieName →
        (emptyRequest "POST").Header k = (appHeaderRequest "POST" "s1").Header k) ∧
      (emptyRequest "POST").Query = (appHeaderRequest "POST" "s1").Query ∧
      (emptyRequest "POST").Cookies = (appHeaderRequest "POST" "s1").Cookies ∧
      (appHeaderRequest "POST" "s1").Header.Get upperSession.cookieName = "s1" ∧
      upperSession.Confirmed (appHeaderRequest "POST" "s1") = true ∧
      upperSession.Confirmed (emptyRequest "POST") = false) ∧
    (cookieSession.cookieName ≠ "app_session_id" ∧
      CanonicalMIMEHeaderKey cookieSession.cookieName
        ≠ CanonicalMIMEHeaderKey "app_session_id" ∧
      (emptyRequest "GET").Method = (appCookieRequest "GET" "s1").Method ∧
      (∀ k, k ≠ CanonicalMIMEHeaderKey cookieSession.cookieName →
        (emptyRequest "GET").Header k = (appCookieRequest "GET" "s1").Header k) ∧
      (emptyRequest "GET").Query = (appCookieRequest "GET" "s1").Query ∧
      (emptyRequest "GET").Header.Values cookieSession.cookieName = [] ∧
      (emptyRequest "GET").Cookies = [] ∧
      (appCookieRequest "GET" "s1").Header.Values cookieSession.cookieName
        = ["app_session_id=s1"] ∧
      (appCookieRequest "GET" "s1").Cookies = [{ Name := "app_session_id", Value := "s1" }] ∧
      cookieSession.Confirmed (appCookieRequest "GET" "s1") = true ∧
      cookieSession.Confirmed (emptyRequest "GET") = false) := by
  refine ⟨⟨by decide, rfl, ?_, rfl, rfl, by decide, by decide, by decide⟩,
    ⟨by decide, by decide, rfl, ?_, rfl, by decide, rfl, by decide, rfl, by decide,
      by decide⟩⟩
  · intro k hk
    have hcanon : CanonicalMIMEHeaderKey upperSession.cookieName = "App_session_id" := by
      decide
    rw [hcanon] at hk
    simp [emptyRequest, appHeaderRequest, headerOf, hk]
  · intro k hk
    have hcanon : CanonicalMIMEHeaderKey cookieSession.cookieName = "Cookie" := by
      decide
    rw [hcanon] at hk
    simp [emptyRequest, appCookieRequest, headerOf, hk]

/-- C11 (amended): `Confirmed` gives the same answer for every two
sessions. Two requests that differ only in the header values under the
carrier name get the same answer when the canonical header form of that
name differs from those of `app_session_id` and of `Cookie`; the cookies
are read from the `Cookie` header, so requests with the same `Cookie`
header have the same cookies. Two requests that differ only in the query
values and the cookies under the carrier name (and in the `Cookie` header
that carries those cookies) get the same answer when that name differs from
`app_session_id`. -/
theorem Confirmed_decoupled :
    (∀ (s1 s2 : StickySession) (req : Request), s1.Confirmed req = s2.Confirmed req) ∧
      (∀ (s : StickySession) (r1 r2 : Request),
        CanonicalMIMEHeaderKey s.cookieName ≠ CanonicalMIMEHeaderKey "app_session_id" →
        CanonicalMIMEHeaderKey s.cookieName ≠ "Cookie" →
        (r2.Header "Cookie" = r1.Header "Cookie" → r2.Cookies = r1.Cookies) →
        r2.Method = r1.Method →
        (∀ k, k ≠ CanonicalMIMEHeaderKey s.cookieName → r2.Header k = r1.Header k) →
        r2.Query = r1.Query →
        s.Confirmed r2 = s.Confirmed r1) ∧
      (∀ (s : StickySession) (r1 r2 : Request),
        s.cookieName ≠ "app_session_id" →
        r2.Method = r1.Method →
        (∀ k, k ≠ "Cookie" → r2.Header k = r1.Header k) →
        (∀ k, k ≠ s.cookieName → r2.Query k = r1.Query k) →
        r2.Cookies.filter (fun c => c.Name != s.cookieName)
          = r1.Cookies.filter (fun c => c.Name != s.cookieName) →
        s.Confirmed r2 = s.Confirmed r1) := by
  refine ⟨fun _ _ _ => rfl, ?_, ?_⟩
  · intro s r1 r2 hcanon hcookie hlink hmethod hheader hquery
    have hcookies : r2.Cookies = r1.Cookies := hlink (hheader _ (Ne.symm hcookie))
    have h1 : r2.Header.Get "app_session_id" = r1.Header.Get "app_session_id" := by
      unfold Header.Get
      rw [hheader _ (Ne.symm hcanon)]
    have h3 : r2.Cookie "app_session_id" = r1.Cookie "app_session_id" := by
      unfold Request.Cookie
      rw [hcookies]
    unfold StickySession.Confirmed
    simp only [h1, hquery, h3, hmethod]
  · intro s r1 r2 hname hmethod hheader hquery hcookies
    have h1 : r2.Header.Get "app_session_id" = r1.Header.Get "app_session_id" := by
      unfold Header.Get
      rw [hheader _ (by decide)]
    have h2 : r2.Query.Get "app_session_id" = r1.Query.Get "app_session_id" := by
      unfold Values.Get
      rw [hquery _ (Ne.symm hname)]
    have h3 : r2.Cookie "app_session_id" = r1.Cookie "app_session_id" :=
      cookie_lookup_filter r1 r2 "app_session_id" s.cookieName hname hcookies
    unfold StickySession.Confirmed
    simp only [h1, h2, h3, hmethod]

theorem Confirmed_decoupled_witness :
    (lb.Confirmed appHeaderStickyRequest = lb.Confirmed (appCookieRequest "GET" "s1") ∧
        lb.Confirmed appHeaderStickyRequest = true) ∧
      (lb.Confirmed appCookieStickyRequest = lb.Confirmed (appCookieRequest "GET" "s1") ∧
        lb.Confirmed appCookieStickyRequest = true) := by
  refine ⟨⟨Confirmed_decoupled.2.1 lb (appCookieRequest "GET" "s1") appHeaderStickyRequest
      (by decide) (by decide) (fun _ => rfl) rfl ?_ rfl, by decide⟩,
    ⟨Confirmed_decoupled.2.2 lb (appCookieRequest "GET" "s1") appCookieStickyRequest
      (by decide) rfl ?_ ?_ (by decide), by decide⟩⟩
  · intro k hk
    have hcanon : CanonicalMIMEHeaderKey lb.cookieName = "Lb" := by decide
    rw [hcanon] at hk
    simp [appHeaderStickyRequest, hk]
  · intro k hk
    simp [appCookieStickyRequest, appCookieRequest, emptyRequest, headerOf, hk]
  · intro k hk
    have hname : lb.cookieName = "lb" := rfl
    rw [hname] at hk
    simp [appCookieStickyRequest, appCookieRequest, emptyRequest, hk]

/-- C12: after `StickBackend(b, w)` the response header of the carrier name
has exactly the one value `b.String()`, every header under another key is
unchanged, and so is `Set-Cookie` unless it is the carrier itself. -/
theorem StickBackend_header (urlString : URL → String) (s : StickySession) (b : URL)
    (w : ResponseWriter) :
    (s.StickBackend urlString b w).Header.Values s.cookieName = [urlString b] ∧
      (∀ k, k ≠ CanonicalMIMEHeaderKey s.cookieName →
        (s.StickBackend urlString b w).Header k = w.Header k) ∧
      (CanonicalMIMEHeaderKey s.cookieName ≠ "Set-Cookie" →
        (s.StickBackend urlString b w).Header.Values "Set-Cookie"
          = w.Header.Values "Set-Cookie") := by
  refine ⟨?_, ?_, ?_⟩
  · simp [StickySession.StickBackend, Header.Values, Header.Set]
  · intro k hk
    exact Header.Set_other w.Header s.cookieName (urlString b) k hk
  · intro hk
    have hcanon : CanonicalMIMEHeaderKey "Set-Cookie" = "Set-Cookie" := by decide
    unfold Header.Values
    rw [hcanon]
    exact Header.Set_other w.Header s.cookieName (urlString b) "Set-Cookie" (Ne.symm hk)

theorem StickBackend_header_witness :
    (lb.StickBackend serialize b1 usedResponse).Header.Values "lb" = ["http://b1"] ∧
      (lb.StickBackend serialize b1 usedResponse).Header.Values "Set-Cookie" = ["sid=1"] :=
  ⟨by decide,
    ((StickBackend_header serialize lb b1 usedResponse).2.2 (by decide)).trans (by decide)⟩

/-- C13 fails on the code: `StickBackend` writes the header `Lb` and adds
no `Set-Cookie` entry, so the response carries no cookie at all. -/
theorem StickBackend_sets_no_cookie :
    (lb.StickBackend serialize b1 emptyResponse).Header.Values "Set-Cookie" = [] ∧
      (lb.StickBackend serialize b1 emptyResponse).Header.Values "lb" = ["http://b1"] := by
  decide

/-- C14: when `b` is in the backend list, `b.String()` is non-empty and
parses back to `b`, a request whose header carrier holds the value that
`StickBackend(b, w)` wrote gets `(b, true, nil)` from `GetBackend`, whatever
its query parameters, cookies and method are. -/
theorem GetBackend_StickBackend (parse : String → Except URLError URL)
    (urlString : URL → String) (s : StickySession) (req : Request) (servers : List URL)
    (b : URL) (w : ResponseWriter) (hmem : b ∈ servers) (hne : urlString b ≠ "")
    (hparse : parse (urlString b) = .ok b)
    (hcarry : req.Header.Get s.cookieName
      = (s.StickBackend urlString b w).Header.Get s.cookieName) :
    s.GetBackend parse req servers = (some b, true, none) := by
  have hset : (s.StickBackend urlString b w).Header.Get s.cookieName = urlString b :=
    Header.Get_Set_self w.Header s.cookieName (urlString b)
  rw [hset] at hcarry
  have hh : req.Header.Get s.cookieName ≠ "" := by rw [hcarry]; exact hne
  rw [GetBackend_header parse s req servers hh, hcarry]
  simp [decisionOf, hparse, (isBackendAlive_iff s b servers).mpr hmem]

theorem GetBackend_StickBackend_witness :
    lb.GetBackend urlParse (noisyRequest "POST" "http://b2" "http://b1" "%%") [b1, b2]
      = (some b2, true, none) :=
  GetBackend_StickBackend urlParse serialize lb
    (noisyRequest "POST" "http://b2" "http://b1" "%%") [b1, b2] b2 usedResponse
    (by decide) (by decide) rfl (by decide)

/-- C15: the sessions `NewStickySession(n)` and
`NewStickySessionWithOptions(n, o)` give the same `GetBackend` result, the
same `Confirmed` result and the same response headers after `StickBackend`,
on every input. -/
theorem CookieOptions_inert (parse : String → Except URLError URL)
    (urlString : URL → String) (n : String) (o : CookieOptions) (req : Request)
    (servers : List URL) (b : URL) (w : ResponseWriter) :
    (NewStickySession n).GetBackend parse req servers
        = (NewStickySessionWithOptions n o).GetBackend parse req servers ∧
      (NewStickySession n).Confirmed req = (NewStickySessionWithOptions n o).Confirmed req ∧
      ((NewStickySession n).StickBackend urlString b w).Header
        = ((NewStickySessionWithOptions n o).StickBackend urlString b w).Header :=
  ⟨rfl, rfl, rfl⟩

/-- C16: two requests with an empty header carrier value and the same
non-empty query carrier value give the same decision whatever their cookies
are: the decision for the query value, which is its parse error when it
fails to parse. -/
theorem GetBackend_query_precedence (parse : String → Except URLError URL)
    (s : StickySession) (r1 r2 : Request) (servers : List URL)
    (hh1 : r1.Header.Get s.cookieName = "") (hh2 : r2.Header.Get s.cookieName = "")
    (hsame : r2.Query.Get s.cookieName = r1.Query.Get s.cookieName)
    (hne : r1.Query.Get s.cookieName ≠ "") :
    s.GetBackend parse r1 servers = s.GetBackend parse r2 servers ∧
      s.GetBackend parse r1 servers
        = match parse (r1.Query.Get s.cookieName) with
          | .ok u =>
            if s.isBackendAlive u servers then (some u, true, none)
            else (none, false, none)
          | .error e => (none, false, some (.url e)) := by
  have hne2 : r2.Query.Get s.cookieName ≠ "" := by rw [hsame]; exact hne
  rw [GetBackend_query parse s r1 servers hh1 hne,
    GetBackend_query parse s r2 servers hh2 hne2, hsame]
  exact ⟨rfl, rfl⟩

theorem GetBackend_query_precedence_witness :
    lb.GetBackend urlParse (queryRequest "GET" "http://\x00bad" "http://b1") [b1]
        = lb.GetBackend urlParse (queryRequest "GET" "http://\x00bad" "http://b2") [b1] ∧
      lb.GetBackend urlParse (queryRequest "GET" "http://\x00bad" "http://b1") [b1]
        = (none, false,
            some (.url ⟨"parse", "http://\x00bad", "net/url: invalid control character in URL"⟩)) :=
  GetBackend_query_precedence urlParse lb (queryRequest "GET" "http://\x00bad" "http://b1")
    (queryRequest "GET" "http://\x00bad" "http://b2") [b1]
    (by decide) (by decide) (by decide) (by decide)

/-- C17: the result of `GetBackend` is `(u, true, nil)`, `(nil, false, nil)`
or `(nil, false, err)`; so the URL is non-nil exactly when `found = true`,
and a non-nil error comes with `found = false` and a nil URL. -/
theorem GetBackend_shape (parse : String → Except URLError URL) (s : StickySession)
    (req : Request) (servers : List URL) :
    ((∃ u, s.GetBackend parse req servers = (some u, true, none)) ∨
        s.GetBackend parse req servers = (none, false, none) ∨
        ∃ e, s.GetBackend parse req servers = (none, false, some e)) ∧
      ((s.GetBackend parse req servers).1 ≠ none ↔
        (s.GetBackend parse req servers).2.1 = true) ∧
      ((s.GetBackend parse req servers).2.2 ≠ none →
        (s.GetBackend parse req servers).2.1 = false ∧
          (s.GetBackend parse req servers).1 = none) := by
  have hshape : (∃ u, s.GetBackend parse req servers = (some u, true, none)) ∨
      s.GetBackend parse req servers = (none, false, none) ∨
      ∃ e, s.GetBackend parse req servers = (none, false, some e) := by
    rcases GetBackend_cases parse s req servers with h | ⟨raw, h⟩
    · exact Or.inr (Or.inl h)
    · rw [h]
      exact decisionOf_shape parse s raw servers
  refine ⟨hshape, ?_, ?_⟩
  · rcases hshape with ⟨u, h⟩ | h | ⟨e, h⟩ <;> simp [h]
  · rcases hshape with ⟨u, h⟩ | h | ⟨e, h⟩ <;> simp [h]

theorem GetBackend_shape_witness :
    (lb.GetBackend urlParse (headerRequest "GET" "http://\x00bad") [b1]).2.1 = false ∧
      (lb.GetBackend urlParse (headerRequest "GET" "http://\x00bad") [b1]).1 = none :=
  (GetBackend_shape urlParse lb (headerRequest "GET" "http://\x00bad") [b1]).2.2 (by decide)

/-- C18: `GetBackend` sees the backend list as a set. Two lists with the
same entries give the same decision; and a decision with `found = true` for
one list is also the decision for every list that contains its entries. -/
theorem GetBackend_servers_as_set (parse : String → Except URLError URL)
    (s : StickySession) (req : Request) (l1 l2 : List URL) :
    ((∀ u, u ∈ l1 ↔ u ∈ l2) →
        s.GetBackend parse req l1 = s.GetBackend parse req l2) ∧
      ((∀ u, u ∈ l1 → u ∈ l2) → (s.GetBackend parse req l1).2.1 = true →
        s.GetBackend parse req l2 = s.GetBackend parse req l1) := by
  rcases GetBackend_uniform parse s req with h | ⟨raw, h⟩
  · exact ⟨fun _ => by rw [h l1, h l2], fun _ _ => by rw [h l1, h l2]⟩
  · rw [h l1, h l2]
    unfold decisionOf
    cases parse raw with
    | error e => exact ⟨fun _ => rfl, fun _ _ => rfl⟩
    | ok u =>
      refine ⟨fun hsame => ?_, fun hsub hfound => ?_⟩
      · simp only [isBackendAlive_congr s u l1 l2 hsame]
      · cases h1 : s.isBackendAlive u l1 with
        | false => simp [h1] at hfound
        | true => simp [h1, isBackendAlive_mono s u l1 l2 hsub h1]

theorem GetBackend_servers_as_set_witness :
    lb.GetBackend urlParse (headerRequest "GET" "http://b2") [b1, b2]
        = lb.GetBackend urlParse (headerRequest "GET" "http://b2") [b2, b1, b2] ∧
      lb.GetBackend urlParse (headerRequest "GET" "http://b2") [b3, b2, b1]
        = lb.GetBackend urlParse (headerRequest "GET" "http://b2") [b2] :=
  ⟨(GetBackend_servers_as_set urlParse lb (headerRequest "GET" "http://b2")
      [b1, b2] [b2, b1, b2]).1 (fun u => by simp only [List.mem_cons]; tauto),
    (GetBackend_servers_as_set urlParse lb (headerRequest "GET" "http://b2")
      [b2] [b3, b2, b1]).2 (fun u hu => by simp only [List.mem_cons] at hu ⊢; tauto)
      (by decide)⟩

end roundrobin
